import Mathlib

/-!
Shallow embedding of the TMC (Titan Micro Circuit) protocol decoder from
`pd.py` of the libsigrokdecode-tmc repository.

Modelling conventions:
* Sample numbers and event spans are `Int` (the decoder initialises the span
  fields `ss`/`es`/`ss_byte`/`ss_ack` to `-1`).
* Python floats in the bitrate computation are modelled as exact rationals
  (`ℚ`); `int(...)` is truncation toward zero (`pytrunc`).
* `self.samplerate` is `Option ℚ` (`None` or a number); Python truthiness of a
  number is `≠ 0`.
* The putp (python output) events, the per-bit `out_ann` annotations, the
  binary output and the bitrate metric are modelled as `Out` values.  The
  `putx` annotations for START/STOP/ACK/NACK/COMMAND/DATA mirror the
  corresponding putp events with identical spans and carry only presentation
  strings built by `compose_annot`; they are elided from the event model.
  The radix text formatter `format_data` is embedded separately.
* `wait()` returns only at samples matching one of the requested patterns;
  the runner `run` therefore treats a sample matching no pattern of the
  current state as a skipped sample (no state change, no output).
-/

/- `Rat.mul`, `Rat.inv`, `Rat.add` and `Rat.sub` are `@[irreducible]`, which
blocks `decide` on concrete rational runs; restore the default
reducibility for this development. -/
attribute [local semireducible] Rat.mul Rat.inv Rat.add Rat.sub

namespace TMC

/-- Bus variants, `Bus.WIRE2` / `Bus.WIRE3` in the source (`self.bustype` is
the string `"wire2"` or `"wire3"`). -/
inductive BusType where
  | wire2
  | wire3
deriving DecidableEq, Repr

/-- The decoder's `self.state` strings: `"FIND START"`, `"FIND DATA"`,
`"FIND ACK"`, `"FIND STOP"`. -/
inductive PDState where
  | FIND_START
  | FIND_DATA
  | FIND_ACK
  | FIND_STOP
deriving DecidableEq, Repr

/-- Protocol output types, from the `commands` mapping of `AnnProtocol`
indices to the strings "START", "STOP", "ACK", "NACK", "COMMAND", "DATA",
"BITS". -/
inductive PType where
  | START
  | STOP
  | ACK
  | NACK
  | COMMAND
  | DATA
  | BITS
deriving DecidableEq, Repr

/-- A bit record: the source stores `[dio, start_sample, end_sample]` lists
in `self.bits`. -/
structure BitRec where
  v : Nat
  ss : Int
  es : Int
deriving DecidableEq, Repr

/-- One emitted output. `putp0` is `putp` with `None` payload (START, STOP,
ACK, NACK); `putpByte` is the COMMAND/DATA `putp`; `putpBits` the BITS
`putp`; `putBin` the binary output; `annBit` a per-bit `out_ann` annotation
(span and the bit value); `bitrate` the `out_bitrate` metric. -/
inductive Out where
  | putp0 (ss es : Int) (p : PType)
  | putpByte (ss es : Int) (p : PType) (v : Nat)
  | putpBits (ss es : Int) (bs : List BitRec)
  | putBin (ss es : Int) (v : Nat)
  | annBit (ss es : Int) (v : Nat)
  | bitrate (ss es : Int) (v : Int)
deriving DecidableEq, Repr

/-- The decoder's mutable instance fields, as set by `reset()`. -/
structure DState where
  ss : Int := -1
  es : Int := -1
  ss_byte : Int := -1
  ss_ack : Int := -1
  pdu_start : Option Int := none
  pdu_bits : Nat := 0
  bustype : Option BusType := none
  bytecount : Nat := 0
  bitcount : Nat := 0
  databyte : Nat := 0
  bits : List BitRec := []
  state : PDState := PDState.FIND_START
deriving DecidableEq, Repr

/-- The state right after `reset()`. -/
def initState : DState := {}

/-- `clear_data`: reset `bitcount`, `databyte`, `bits`. -/
def clear_data (s : DState) : DState :=
  { s with bitcount := 0, databyte := 0, bits := [] }

/-- Python `int()` applied to an exact rational: truncation toward zero. -/
def pytrunc (q : ℚ) : Int := q.num.tdiv (q.den : Int)

/-- `handle_bitrate`, parameter form.  The source computes
`elapsed = 1 / float(samplerate) * (samplenum - pdu_start - 1)` and, when
`elapsed` is truthy (nonzero), emits
`int(1 / elapsed * pdu_bits)` over the span `(ss_byte, samplenum)`.
Floats are modelled as exact rationals. -/
def handle_bitrate (sr : ℚ) (samplenum pdu_start : Int) (pdu_bits : Nat)
    (ss_byte : Int) : List Out :=
  let elapsed : ℚ := 1 / sr * (((samplenum : ℚ) - (pdu_start : ℚ)) - 1)
  if elapsed ≠ 0 then
    [Out.bitrate ss_byte samplenum (pytrunc (1 / elapsed * (pdu_bits : ℚ)))]
  else []

/-- `handle_bitrate` reading its inputs from the decoder state, as the stop
handlers invoke it.  The `none` branch of `pdu_start` is unreachable from
`decode` (a stop handler only runs from FIND DATA / FIND STOP, states entered
after `handle_start` set `pdu_start`). -/
def handle_bitrateS (sr : ℚ) (s : DState) (sn : Int) : List Out :=
  match s.pdu_start with
  | some p => handle_bitrate sr sn p s.pdu_bits s.ss_byte
  | none => []

/-- Python division `a / b`, which raises `ZeroDivisionError` when `b = 0`;
`none` models the raised exception. -/
def pydiv (a b : ℚ) : Option ℚ := if b = 0 then none else some (a / b)

/-- `handle_bitrate` with each division checked as Python evaluates it:
`none` means a `ZeroDivisionError` was raised. -/
def handle_bitrate_checked (sr : ℚ) (samplenum pdu_start : Int)
    (pdu_bits : Nat) (ss_byte : Int) : Option (List Out) :=
  match pydiv 1 sr with
  | none => none
  | some t =>
    let elapsed : ℚ := t * (((samplenum : ℚ) - (pdu_start : ℚ)) - 1)
    if elapsed ≠ 0 then
      match pydiv 1 elapsed with
      | none => none
      | some x => some [Out.bitrate ss_byte samplenum (pytrunc (x * (pdu_bits : ℚ)))]
    else some []

/-- `handle_start`: record the span and bitrate window start, reset the
session counters and the data cache, emit START, go to FIND DATA.
(`bustype` is set by `decode` before this call.) -/
def handle_start (s : DState) (sn : Int) : DState × List Out :=
  let s := { s with ss := sn, es := sn, pdu_start := some sn, pdu_bits := 0,
                    bytecount := 0 }
  let s := clear_data s
  ({ s with state := PDState.FIND_DATA }, [Out.putp0 sn sn PType.START])

/-- `handle_data_wire2`: called at each clock rising edge on the 2-wire bus.
`dio` is the data-line level at that edge.  The match arm for a too-short
`bits` list mirrors the source's reliance on `bitcount > 0 → len(bits) ≥ 2`
(an `IndexError` otherwise, unreachable because every call appends a bit). -/
def handle_data_wire2 (s : DState) (sn : Int) (dio : Bool) : DState × List Out :=
  let bits1 := BitRec.mk dio.toNat sn sn :: s.bits
  let pr :=
    if s.bitcount > 0 then
      match bits1 with
      | cur :: prev :: rest =>
        let prev' := { prev with es := sn }
        (cur :: prev' :: rest,
         if s.bitcount ≤ 8 then [Out.annBit prev'.ss prev'.es prev'.v] else [])
      | l => (l, [])
    else (bits1, [])
  let bits2 := pr.1
  let annOuts := pr.2
  let bitcount1 := s.bitcount + 1
  if bitcount1 ≤ 8 then
    ({ s with bits := bits2, bitcount := bitcount1,
              databyte := (s.databyte >>> 1) ||| (dio.toNat <<< 7) }, annOuts)
  else
    let cmd := if s.bytecount = 0 then PType.COMMAND else PType.DATA
    let bitsB := (bits2.drop (bits2.length - 8)).reverse
    ({ s with ss := s.ss_byte, es := sn,
              bitcount := 0, databyte := 0, bits := [],
              ss_ack := sn, bytecount := s.bytecount + 1,
              state := PDState.FIND_ACK },
     annOuts ++ [Out.putpBits s.ss_byte sn bitsB,
                 Out.putpByte s.ss_byte sn cmd s.databyte,
                 Out.putBin s.ss_byte sn s.databyte])

/-- `handle_ack`: classify the data level at the clock falling edge as ACK
(low) or NACK (high), emit over `(ss_ack, samplenum)`, return to FIND DATA. -/
def handle_ack (s : DState) (sn : Int) (dio : Bool) : DState × List Out :=
  ({ s with ss := s.ss_ack, es := sn, state := PDState.FIND_DATA },
   [Out.putp0 s.ss_ack sn (if dio then PType.NACK else PType.ACK)])

/-- `handle_stop_wire2`: bitrate metric, STOP event, clear data, FIND START. -/
def handle_stop_wire2 (sr : ℚ) (s : DState) (sn : Int) : DState × List Out :=
  let br := handle_bitrateS sr s sn
  let s := { s with ss := sn, es := sn }
  ({ clear_data s with state := PDState.FIND_START },
   br ++ [Out.putp0 sn sn PType.STOP])

/-- `handle_byte_wire3`: flush the byte in progress.  A no-op when `bits` is
empty.  Otherwise: fix the last bit's end sample, emit an annotation per bit
(most-recent-first iteration order), reverse `bits` in place (oldest first),
emit BITS / the classified byte / the binary byte, increment `bytecount`. -/
def handle_byte_wire3 (s : DState) (sn : Int) : DState × List Out :=
  match s.bits with
  | [] => (s, [])
  | b0 :: rest =>
    let bits1 := { b0 with es := sn } :: rest
    let annOuts := bits1.map (fun b => Out.annBit b.ss b.es b.v)
    let cmd := if s.bytecount = 0 then PType.COMMAND else PType.DATA
    let bitsR := bits1.reverse
    ({ s with ss := s.ss_byte, es := sn, bits := bitsR,
              bytecount := s.bytecount + 1 },
     annOuts ++ [Out.putpBits s.ss_byte sn bitsR,
                 Out.putpByte s.ss_byte sn cmd s.databyte,
                 Out.putBin s.ss_byte sn s.databyte])

/-- `handle_data_wire3`: called at each clock rising edge on the 3-wire bus.
If 8 bits are already pending, flush them first and restart accumulation at
the current sample; then record the new bit, fold it into the byte, and fix
the previous bit's end sample. -/
def handle_data_wire3 (s : DState) (sn : Int) (dio : Bool) : DState × List Out :=
  let fl :=
    if s.bitcount ≥ 8 then
      let r := handle_byte_wire3 s sn
      ({ clear_data r.1 with ss_byte := sn }, r.2)
    else (s, [])
  let s := fl.1
  let bits1 := BitRec.mk dio.toNat sn sn :: s.bits
  let databyte1 := (s.databyte >>> 1) ||| (dio.toNat <<< 7)
  let bits2 :=
    if s.bitcount > 0 then
      match bits1 with
      | cur :: prev :: rest => cur :: { prev with es := sn } :: rest
      | l => l
    else bits1
  ({ s with bits := bits2, databyte := databyte1, bitcount := s.bitcount + 1 },
   fl.2)

/-- `handle_stop_wire3`: bitrate metric, flush the pending byte, STOP event,
clear data, FIND START. -/
def handle_stop_wire3 (sr : ℚ) (s : DState) (sn : Int) : DState × List Out :=
  let br := handle_bitrateS sr s sn
  let fl := handle_byte_wire3 s sn
  let s := { fl.1 with ss := sn, es := sn }
  ({ clear_data s with state := PDState.FIND_START },
   br ++ fl.2 ++ [Out.putp0 sn sn PType.STOP])

/-- `handle_data`: count the PDU bit, remember the byte start sample when the
accumulator is empty, then dispatch on the bus variant (the source resolves
`handle_data_wire2` / `handle_data_wire3` by name from `self.bustype`; the
`none` branch is unreachable because `decode` sets `bustype` before any
FIND DATA state). -/
def handle_data (s : DState) (sn : Int) (dio : Bool) : DState × List Out :=
  let s := { s with pdu_bits := s.pdu_bits + 1 }
  let s := if s.bitcount = 0 then { s with ss_byte := sn } else s
  match s.bustype with
  | some BusType.wire2 => handle_data_wire2 s sn dio
  | some BusType.wire3 => handle_data_wire3 s sn dio
  | none => (s, [])

/-- `handle_stop`: dispatch on the bus variant (the `none` branch is
unreachable from `decode`, as for `handle_data`). -/
def handle_stop (sr : ℚ) (s : DState) (sn : Int) : DState × List Out :=
  match s.bustype with
  | some BusType.wire2 => handle_stop_wire2 sr s sn
  | some BusType.wire3 => handle_stop_wire3 sr s sn
  | none => (s, [])

/-- One sample at which `wait()` may return: the sample number, the previous
and current levels of CLK, DIO and STB.  An absent strobe channel is
modelled by constant-low strobe levels (its patterns then never match). -/
structure Event where
  sn : Int
  pclk : Bool
  clk : Bool
  pdio : Bool
  dio : Bool
  pstb : Bool
  stb : Bool
deriving DecidableEq, Repr

/-- Edge predicate `"r"`: low at the previous sample, high now. -/
def rising (p c : Bool) : Bool := !p && c

/-- Edge predicate `"f"`: high at the previous sample, low now. -/
def falling (p c : Bool) : Bool := p && !c

/-- One iteration of the `decode` state machine at a sample, with the
source's first-listed-match-wins dispatch on the wait patterns of the
current state.  A sample matching no pattern is one `wait()` skips: no state
change, no output. -/
def step (sr : ℚ) (s : DState) (e : Event) : DState × List Out :=
  match s.state with
  | PDState.FIND_START =>
    if (e.clk && falling e.pstb e.stb) || (!e.clk && falling e.pstb e.stb) then
      handle_start { s with bustype := some BusType.wire3 } e.sn
    else if e.clk && falling e.pdio e.dio then
      handle_start { s with bustype := some BusType.wire2 } e.sn
    else (s, [])
  | PDState.FIND_DATA =>
    if rising e.pstb e.stb || (e.clk && rising e.pdio e.dio) then
      handle_stop sr s e.sn
    else if rising e.pclk e.clk then
      handle_data s e.sn e.dio
    else (s, [])
  | PDState.FIND_ACK =>
    if falling e.pclk e.clk then handle_ack s e.sn e.dio else (s, [])
  | PDState.FIND_STOP =>
    if rising e.pstb e.stb || (e.clk && rising e.pdio e.dio) then
      handle_stop sr s e.sn
    else (s, [])

/-- Run the decode loop over a list of samples, accumulating the outputs. -/
def run (sr : ℚ) (s : DState) (es : List Event) : DState × List Out :=
  es.foldl (fun acc e => let r := step sr acc.1 e; (r.1, acc.2 ++ r.2)) (s, [])

/-- Errors raised by `decode` before any sample is processed. -/
inductive DecodeError where
  | samplerateError
  | channelError
deriving DecidableEq, Repr

/-- `decode`: raise `SamplerateError` when `self.samplerate` is falsy
(`None` or `0`), then `ChannelError` unless both CLK and DIO are present
(the strobe channel is never checked), then run the sample loop. -/
def decode (samplerate : Option ℚ) (hasCLK hasDIO hasSTB : Bool)
    (es : List Event) : Except DecodeError (DState × List Out) :=
  match samplerate with
  | none => Except.error DecodeError.samplerateError
  | some sr =>
    if sr = 0 then Except.error DecodeError.samplerateError
    else if hasCLK && hasDIO then Except.ok (run sr initState es)
    else Except.error DecodeError.channelError

/-- Python `str.upper()` (charwise ASCII uppercase, which is all the option
strings "Hex"/"Dec"/"Oct"/"Bin" need). -/
def strUpper (s : String) : String := String.mk (s.data.map Char.toUpper)

/-- `format_data`: the radix text formatter.  `"{:#d}"` is plain decimal,
`"{:#b}"` / `"{:#o}"` prefix `0b` / `0o`, and the default `"{:#04x}"` is
lowercase hex prefixed `0x` and zero-padded to a total width of 4. -/
def format_data (data : Nat) (radix : String) : String :=
  let r := strUpper radix
  if r = "DEC" then toString data
  else if r = "BIN" then "0b" ++ String.mk (Nat.toDigits 2 data)
  else if r = "OCT" then "0o" ++ String.mk (Nat.toDigits 8 data)
  else
    let ds := Nat.toDigits 16 data
    let ds := if ds.length < 2 then List.replicate (2 - ds.length) '0' ++ ds else ds
    "0x" ++ String.mk ds

/-- Recognizer for COMMAND/DATA byte events. -/
def isByteEvt : Out → Bool
  | Out.putpByte _ _ _ _ => true
  | _ => false

/-- Recognizer for BITS events. -/
def isBitsEvt : Out → Bool
  | Out.putpBits _ _ _ => true
  | _ => false

/-- Number of COMMAND/DATA byte events in an output list. -/
def countByte (l : List Out) : Nat := l.countP isByteEvt

/-- Recognizer for a bitrate metric over a given span. -/
def isBitrateAt (ss es : Int) : Out → Bool
  | Out.bitrate a b _ => a = ss && b = es
  | _ => false

/-- Recognizer for any bitrate metric. -/
def isBitrateEvt : Out → Bool
  | Out.bitrate _ _ _ => true
  | _ => false

/-- Run a list of `handle_data` invocations (sample, data level) from a
state, accumulating outputs: the FIND DATA clock-rising-edge path. -/
def runData (s : DState) (ps : List (Int × Bool)) : DState × List Out :=
  ps.foldl (fun acc p => let r := handle_data acc.1 p.1 p.2; (r.1, acc.2 ++ r.2))
    (s, [])

end TMC

namespace TMC

lemma countByte_append (a b : List Out) :
    countByte (a ++ b) = countByte a + countByte b :=
  List.countP_append _ _ _

lemma countByte_handle_bitrate (sr : ℚ) (sn ps : Int) (pb : Nat) (ssb : Int) :
    countByte (handle_bitrate sr sn ps pb ssb) = 0 := by
  by_cases h : (1 / sr * (((sn : ℚ) - (ps : ℚ)) - 1)) ≠ 0 <;>
    simp only [handle_bitrate, if_pos h, if_neg h, countByte, List.countP_cons,
      List.countP_nil, isByteEvt, List.countP] <;> rfl

lemma countByte_handle_bitrateS (sr : ℚ) (s : DState) (sn : Int) :
    countByte (handle_bitrateS sr s sn) = 0 := by
  unfold handle_bitrateS
  cases s.pdu_start
  · rfl
  · exact countByte_handle_bitrate ..

/-- C1: Bit order of byte assembly: for every sequence of 8 data bits b0..b7
with b0 sampled first, the byte assembled by the accumulator (right-shift of
the accumulator and insertion of the new bit at position 7, in both the
2-wire and the 3-wire data handlers) equals
b0 | b1<<1 | b2<<2 | ... | b7<<7: the first received bit is the LSB. -/
theorem spec_C1 : ∀ (b0 b1 b2 b3 b4 b5 b6 b7 : Bool),
    ((runData (handle_start { initState with bustype := some BusType.wire2 } 0).1
        ([b0, b1, b2, b3, b4, b5, b6, b7].map (fun b => ((0 : Int), b)))).1.databyte =
      b0.toNat ||| b1.toNat <<< 1 ||| b2.toNat <<< 2 ||| b3.toNat <<< 3 |||
      b4.toNat <<< 4 ||| b5.toNat <<< 5 ||| b6.toNat <<< 6 ||| b7.toNat <<< 7)
    ∧ ((runData (handle_start { initState with bustype := some BusType.wire3 } 0).1
        ([b0, b1, b2, b3, b4, b5, b6, b7].map (fun b => ((0 : Int), b)))).1.databyte =
      b0.toNat ||| b1.toNat <<< 1 ||| b2.toNat <<< 2 ||| b3.toNat <<< 3 |||
      b4.toNat <<< 4 ||| b5.toNat <<< 5 ||| b6.toNat <<< 6 ||| b7.toNat <<< 7) := by
  decide

/-- C8: Radix formatting: `format_data` yields "0x0d" for 13 with radix Hex
(zero-padded to at least two hex digits), "13" with Dec, "0b1101" with Bin,
"0o15" with Oct, and falls back to the Hex format for any unrecognized
radix. -/
theorem spec_C8 :
    format_data 13 "Hex" = "0x0d"
    ∧ format_data 13 "Dec" = "13"
    ∧ format_data 13 "Bin" = "0b1101"
    ∧ format_data 13 "Oct" = "0o15"
    ∧ (∀ (v : Nat) (r : String),
        strUpper r ≠ "DEC" → strUpper r ≠ "BIN" → strUpper r ≠ "OCT" →
        format_data v r = format_data v "Hex") := by
  refine ⟨by decide, by decide, by decide, by decide, ?_⟩
  intro v r h1 h2 h3
  have hH1 : strUpper "Hex" ≠ "DEC" := by decide
  have hH2 : strUpper "Hex" ≠ "BIN" := by decide
  have hH3 : strUpper "Hex" ≠ "OCT" := by decide
  simp only [format_data]
  rw [if_neg h1, if_neg h2, if_neg h3, if_neg hH1, if_neg hH2, if_neg hH3]

/-- Witness for the unrecognized-radix clause of C8 at radix "Foo". -/
theorem spec_C8_witness : format_data 13 "Foo" = format_data 13 "Hex" :=
  spec_C8.2.2.2.2 13 "Foo" (by decide) (by decide) (by decide)

/-- C10: Division safety in the bitrate computation: under the precondition
enforced at the start of `decode` (a truthy sample rate), neither division in
`handle_bitrate` divides by zero: the exception-checked evaluation returns
the unchecked result instead of a `ZeroDivisionError`. -/
theorem spec_C10 : ∀ (sr : ℚ) (sn ps ssb : Int) (pb : Nat), sr ≠ 0 →
    handle_bitrate_checked sr sn ps pb ssb =
      some (handle_bitrate sr sn ps pb ssb) := by
  intro sr sn ps ssb pb h
  by_cases he : (1 / sr * (((sn : ℚ) - (ps : ℚ)) - 1)) = 0 <;>
    simp [handle_bitrate_checked, handle_bitrate, pydiv, h, he] <;>
    rcases eq_or_ne (((sn : ℚ) - (ps : ℚ)) - 1) 0 with h0 | h0 <;> simp_all

/-- Witness for C10: sample rate 1000, stop sample 1001, start 0, 80 bits. -/
theorem spec_C10_witness :
    handle_bitrate_checked 1000 1001 0 80 7 = some (handle_bitrate 1000 1001 0 80 7) :=
  spec_C10 1000 1001 0 7 80 (by norm_num)

end TMC

namespace TMC

/-- C5: Bitrate computation: with a nonzero sample rate,
`elapsed = (samplenum - pdu_start - 1) / sample_rate`; when elapsed is
nonzero a single metric carrying the integer part of
`pdu_bit_count / elapsed` is emitted, when elapsed is zero nothing is
emitted and no error is raised; on the spec's example inputs
(rate 1000000, start 0, stop 1001, 80 bits) the value is 80000. -/
theorem spec_C5 : ∀ (sr : ℚ) (sn ps ssb : Int) (pb : Nat), sr ≠ 0 →
    ((((sn : ℚ) - (ps : ℚ) - 1) / sr ≠ 0 →
      handle_bitrate sr sn ps pb ssb =
        [Out.bitrate ssb sn (pytrunc ((pb : ℚ) / (((sn : ℚ) - (ps : ℚ) - 1) / sr)))])
    ∧ ((((sn : ℚ) - (ps : ℚ) - 1) / sr = 0 →
        handle_bitrate sr sn ps pb ssb = []
        ∧ (handle_bitrate_checked sr sn ps pb ssb).isSome = true))
    ∧ handle_bitrate 1000000 1001 0 80 ssb = [Out.bitrate ssb 1001 80000]) := by
  intro sr sn ps ssb pb h
  have key : (1 : ℚ) / sr * (((sn : ℚ) - (ps : ℚ)) - 1) =
      ((sn : ℚ) - (ps : ℚ) - 1) / sr := by ring
  refine ⟨?_, ?_, ?_⟩
  · intro hne
    have harg : (1 : ℚ) / (((sn : ℚ) - (ps : ℚ) - 1) / sr) * (pb : ℚ) =
        (pb : ℚ) / (((sn : ℚ) - (ps : ℚ) - 1) / sr) := by ring
    simp only [handle_bitrate, key]
    rw [if_pos hne, harg]
  · intro h0
    constructor
    · simp only [handle_bitrate, key]
      rw [if_neg (by simp [h0])]
    · have hz : ((sn : ℚ) - (ps : ℚ) - 1) = 0 := by
        rcases div_eq_zero_iff.mp h0 with h' | h'
        · exact h'
        · exact absurd h' h
      simp [handle_bitrate_checked, pydiv, h, hz]
  · have h6 : (1000000 : ℚ) ≠ 0 := by norm_num
    have e1 : (1 : ℚ) / 1000000 * ((((1001 : Int) : ℚ)) - (((0 : Int) : ℚ)) - 1) =
        1 / 1000 := by norm_num
    simp only [handle_bitrate, e1]
    rw [if_pos (by norm_num)]
    norm_num [pytrunc]

/-- Witness for C5 at sample rate 1000000, start 0, stop 1001, 80 bits. -/
theorem spec_C5_witness :
    handle_bitrate 1000000 1001 0 80 7 = [Out.bitrate 7 1001 80000] :=
  (spec_C5 1000000 1001 0 7 80 (by norm_num)).2.2

/-- `Except` success recognizer (decoding proceeded past the precondition
checks). -/
def exceptOk {ε α : Type} : Except ε α → Bool
  | Except.ok _ => true
  | Except.error _ => false

/-- C6: Fatal precondition failures: `decode` fails before processing any
sample exactly when the sample rate is not configured (absent or zero) or
CLK or DIO is absent; the strobe channel's presence never matters, and the
bus variant is instead determined dynamically at the START condition (strobe
falling edge: 3-wire; clock-high data falling edge: 2-wire). -/
theorem spec_C6 : ∀ (srOpt : Option ℚ) (c d stb : Bool) (es : List Event),
    (exceptOk (decode srOpt c d stb es) = true ↔
      (srOpt ≠ none ∧ srOpt ≠ some 0 ∧ c = true ∧ d = true))
    ∧ decode srOpt c d true es = decode srOpt c d false es
    ∧ (∀ (sr : ℚ) (e : Event),
        (step sr initState e).1.bustype =
          if falling e.pstb e.stb then some BusType.wire3
          else if e.clk && falling e.pdio e.dio then some BusType.wire2
          else none) := by
  intro srOpt c d stb es
  refine ⟨?_, ?_, ?_⟩
  · rcases srOpt with _ | sr
    · simp [decode, exceptOk]
    · by_cases hsr : sr = 0 <;> cases c <;> cases d <;>
        simp [decode, exceptOk, hsr]
  · rcases srOpt with _ | sr
    · simp [decode]
    · by_cases hsr : sr = 0 <;> cases c <;> cases d <;> simp [decode, hsr]
  · intro sr e
    rcases e with ⟨sn, pclk, clk, pdio, dio, pstb, stb'⟩
    cases pstb <;> cases stb' <;> cases clk <;> cases pdio <;> cases dio <;>
      simp [step, initState, falling, rising, handle_start, clear_data]

end TMC

namespace TMC

/-- A sample on a 2-wire bus capture (strobe constant low, so no strobe
pattern ever matches). -/
def mkEv (sn : Int) (pclk clk pdio dio : Bool) : Event :=
  { sn := sn, pclk := pclk, clk := clk, pdio := pdio, dio := dio,
    pstb := false, stb := false }

/-- The 2-wire end-to-end input of claim C2, exactly as stated: clock high
with a data falling edge at sample 10, eight clock rising edges at samples
20,30,...,90 carrying the data levels 1,0,1,1,0,0,0,0 (stable across each
edge), a clock falling edge at sample 95 with data low, and clock high with
a data rising edge at sample 200. -/
def traceC2claim : List Event :=
  [mkEv 10 true true true false,
   mkEv 20 false true true true,
   mkEv 30 false true false false,
   mkEv 40 false true true true,
   mkEv 50 false true true true,
   mkEv 60 false true false false,
   mkEv 70 false true false false,
   mkEv 80 false true false false,
   mkEv 90 false true false false,
   mkEv 95 true false false false,
   mkEv 200 true true false true]

/-- Counterexample to C2 as stated: on the claimed input (only eight clock
rising edges before the ACK-slot falling edge) the decoder emits no COMMAND
event at all — the byte is only flushed at a ninth clock rising edge — emits
no ACK event, and the bitrate metric spans from the first data bit (sample
20), not from the START sample 10.  The full output of the run is the START
event, the per-bit annotations of bits 1..7, the bitrate metric over
[20,200] and the STOP event. -/
theorem spec_C2_counterexample :
    ((run 1000 initState traceC2claim).2 =
      [Out.putp0 10 10 PType.START,
       Out.annBit 20 30 1, Out.annBit 30 40 0, Out.annBit 40 50 1,
       Out.annBit 50 60 1, Out.annBit 60 70 0, Out.annBit 70 80 0,
       Out.annBit 80 90 0,
       Out.bitrate 20 200 42, Out.putp0 200 200 PType.STOP])
    ∧ ((run 1000 initState traceC2claim).2.all
        (fun o => !(isByteEvt o)) = true)
    ∧ (Out.putp0 90 95 PType.ACK ∉ (run 1000 initState traceC2claim).2)
    ∧ ((run 1000 initState traceC2claim).2.all
        (fun o => !(isBitrateAt 10 200 o)) = true) := by
  decide

/-- The amended 2-wire end-to-end input: as in C2 but with the ninth clock
rising edge (the ACK clock pulse) at sample 100 with data low, and the
clock falling edge moved after it, to sample 105. -/
def traceC2amended : List Event :=
  [mkEv 10 true true true false,
   mkEv 20 false true true true,
   mkEv 30 false true false false,
   mkEv 40 false true true true,
   mkEv 50 false true true true,
   mkEv 60 false true false false,
   mkEv 70 false true false false,
   mkEv 80 false true false false,
   mkEv 90 false true false false,
   mkEv 100 false true false false,
   mkEv 105 true false false false,
   mkEv 200 true true false true]

/-- C2 amended: starting in FIND START with sample rate 1000, the input with
a START condition at 10, nine clock rising edges at 20,...,100 (the first
eight carrying bits 1,0,1,1,0,0,0,0 LSB-first, the ninth the ACK clock
pulse), a clock falling edge at 105 with data low, and a STOP condition at
200 produces: START at [10,10], per-bit annotations, the BITS, COMMAND
(value 13) and binary byte events spanning [20,100], ACK at [100,105], a
bitrate metric over [20,200], and STOP at [200,200]. -/
theorem spec_C2_amended :
    (run 1000 initState traceC2amended).2 =
      [Out.putp0 10 10 PType.START,
       Out.annBit 20 30 1, Out.annBit 30 40 0, Out.annBit 40 50 1,
       Out.annBit 50 60 1, Out.annBit 60 70 0, Out.annBit 70 80 0,
       Out.annBit 80 90 0, Out.annBit 90 100 0,
       Out.putpBits 20 100
         [BitRec.mk 1 20 30, BitRec.mk 0 30 40, BitRec.mk 1 40 50,
          BitRec.mk 1 50 60, BitRec.mk 0 60 70, BitRec.mk 0 70 80,
          BitRec.mk 0 80 90, BitRec.mk 0 90 100],
       Out.putpByte 20 100 PType.COMMAND 13,
       Out.putBin 20 100 13,
       Out.putp0 100 105 PType.ACK,
       Out.bitrate 20 200 47,
       Out.putp0 200 200 PType.STOP] := by
  decide

end TMC

namespace TMC

/-- C4: Byte classification and session counter reset: `handle_start` resets
the byte counter to 0; each data handler emits a completed byte exactly when
its accumulation boundary is reached (the 9th bit for 2-wire, a nonempty
pending buffer for the 3-wire flush), classifies it COMMAND exactly when the
session's byte counter is 0 and DATA otherwise, and increments the byte
counter by one exactly when it emits a byte. -/
theorem spec_C4 : ∀ (s : DState) (sn : Int) (dio : Bool),
    ((handle_start s sn).1.bytecount = 0)
    ∧ ((handle_data_wire2 s sn dio).1.bytecount =
        if s.bitcount + 1 ≤ 8 then s.bytecount else s.bytecount + 1)
    ∧ ((handle_data_wire2 s sn dio).2.filter isByteEvt =
        if s.bitcount + 1 ≤ 8 then []
        else [Out.putpByte s.ss_byte sn
          (if s.bytecount = 0 then PType.COMMAND else PType.DATA) s.databyte])
    ∧ ((handle_byte_wire3 s sn).1.bytecount =
        if s.bits = [] then s.bytecount else s.bytecount + 1)
    ∧ ((handle_byte_wire3 s sn).2.filter isByteEvt =
        if s.bits = [] then []
        else [Out.putpByte s.ss_byte sn
          (if s.bytecount = 0 then PType.COMMAND else PType.DATA) s.databyte]) := by
  intro s sn dio
  refine ⟨rfl, ?_, ?_, ?_, ?_⟩
  · by_cases h8 : s.bitcount + 1 ≤ 8 <;>
      by_cases h0 : s.bitcount > 0 <;>
      rcases hbits : s.bits with _ | ⟨b, rest⟩ <;>
      by_cases hb8 : s.bitcount ≤ 8 <;>
      simp [handle_data_wire2, h8, h0, hb8, hbits, isByteEvt]
  · by_cases h8 : s.bitcount + 1 ≤ 8 <;>
      by_cases h0 : s.bitcount > 0 <;>
      rcases hbits : s.bits with _ | ⟨b, rest⟩ <;>
      by_cases hb8 : s.bitcount ≤ 8 <;>
      simp [handle_data_wire2, h8, h0, hb8, hbits, isByteEvt]
  · rcases hbits : s.bits with _ | ⟨b, rest⟩ <;>
      simp [handle_byte_wire3, hbits, isByteEvt]
  · rcases hbits : s.bits with _ | ⟨b, rest⟩ <;>
      simp [handle_byte_wire3, hbits, isByteEvt, List.filter_map, Function.comp]

end TMC

namespace TMC

lemma handle_bitrate_shape (sr : ℚ) (sn ps : Int) (pb : Nat) (ssb : Int) :
    ∀ o ∈ handle_bitrate sr sn ps pb ssb, isBitrateEvt o = true := by
  intro o ho
  by_cases h : (1 / sr * (((sn : ℚ) - (ps : ℚ)) - 1)) ≠ 0
  · simp only [handle_bitrate, if_pos h, List.mem_singleton] at ho
    subst ho; rfl
  · simp only [handle_bitrate, if_neg h, List.not_mem_nil] at ho

lemma handle_bitrateS_shape (sr : ℚ) (s : DState) (sn : Int) :
    ∀ o ∈ handle_bitrateS sr s sn, isBitrateEvt o = true := by
  intro o ho
  unfold handle_bitrateS at ho
  rcases hps : s.pdu_start with _ | p <;> rw [hps] at ho
  · simp at ho
  · exact handle_bitrate_shape sr sn p s.pdu_bits s.ss_byte o ho

/-- C7: 2-wire per-bit annotation boundary: in `handle_data_wire2`, on a
clock rising edge at which a previous bit exists (`bitcount ≥ 1`), the
previous bit's end sample is set to the current sample, and the per-bit
annotation for that just-closed bit (spanning its start..end) is emitted if
and only if `bitcount ≤ 8`; hence bits 1..8 of a byte each receive a live
per-bit annotation and the ACK-slot bit receives none. -/
theorem spec_C7 : ∀ (s : DState) (sn : Int) (dio : Bool) (b : BitRec)
    (rest : List BitRec), s.bits = b :: rest → 1 ≤ s.bitcount →
    ((Out.annBit b.ss sn b.v ∈ (handle_data_wire2 s sn dio).2) ↔
      s.bitcount ≤ 8)
    ∧ (s.bitcount + 1 ≤ 8 →
        (handle_data_wire2 s sn dio).1.bits =
          BitRec.mk dio.toNat sn sn :: { b with es := sn } :: rest)
    ∧ (s.bitcount = 8 → rest.length = 7 →
        Out.putpBits s.ss_byte sn (({ b with es := sn } :: rest).reverse)
          ∈ (handle_data_wire2 s sn dio).2) := by
  intro s sn dio b rest hbits hbc
  have h0 : 0 < s.bitcount := hbc
  refine ⟨?_, ?_, ?_⟩
  · by_cases hb8 : s.bitcount ≤ 8 <;> by_cases h8 : s.bitcount + 1 ≤ 8 <;>
      simp [handle_data_wire2, hbits, h0, hb8, h8]
  · intro h8
    have hb8 : s.bitcount ≤ 8 := by omega
    simp [handle_data_wire2, hbits, h0, hb8, h8]
  · intro h8 hlen
    have hb8 : s.bitcount ≤ 8 := by omega
    have h9 : ¬(s.bitcount + 1 ≤ 8) := by omega
    simp [handle_data_wire2, hbits, h0, hb8, h9, h8, hlen]

/-- A decoder state holding one accumulated bit (value 1, sampled at 20). -/
def w7state : DState :=
  { initState with bits := [BitRec.mk 1 20 20], bitcount := 1 }

/-- Witness for C7: an accumulator holding one bit (value 1, sampled at 20)
at the rising edge at sample 30. -/
theorem spec_C7_witness :
    (Out.annBit 20 30 1 ∈ (handle_data_wire2 w7state 30 false).2) ↔
      w7state.bitcount ≤ 8 :=
  (spec_C7 w7state 30 false (BitRec.mk 1 20 20) [] rfl (by decide)).1

/-- C9: 2-wire stop discards a partial byte: `handle_stop_wire2` emits only
the bitrate metric and the STOP event — never a COMMAND, DATA or BITS
event — and clears the bit counter, the byte accumulator and the bit
buffer; the 3-wire stop handler instead flushes a pending nonempty byte
(exactly one byte event). -/
theorem spec_C9 : ∀ (sr : ℚ) (s : DState) (sn : Int),
    ((handle_stop_wire2 sr s sn).2 =
      handle_bitrateS sr s sn ++ [Out.putp0 sn sn PType.STOP])
    ∧ (∀ o ∈ (handle_stop_wire2 sr s sn).2,
        isByteEvt o = false ∧ isBitsEvt o = false)
    ∧ (handle_stop_wire2 sr s sn).1.bitcount = 0
    ∧ (handle_stop_wire2 sr s sn).1.databyte = 0
    ∧ (handle_stop_wire2 sr s sn).1.bits = []
    ∧ (s.bits ≠ [] → countByte (handle_stop_wire3 sr s sn).2 = 1) := by
  intro sr s sn
  refine ⟨rfl, ?_, rfl, rfl, rfl, ?_⟩
  · intro o ho
    have ho' : o ∈ handle_bitrateS sr s sn ∨ o = Out.putp0 sn sn PType.STOP := by
      simpa [handle_stop_wire2] using ho
    rcases ho' with h | h
    · have hb := handle_bitrateS_shape sr s sn o h
      cases o <;> simp_all [isBitrateEvt, isByteEvt, isBitsEvt]
    · subst h
      exact ⟨rfl, rfl⟩
  · intro hne
    rcases hbits : s.bits with _ | ⟨b, rest⟩
    · exact absurd hbits hne
    · have h1 : List.countP isByteEvt (handle_bitrateS sr s sn) = 0 :=
        countByte_handle_bitrateS sr s sn
      simp [handle_stop_wire3, handle_byte_wire3, hbits, countByte_append,
        countByte, isByteEvt, List.countP_cons, List.countP_map,
        Function.comp, h1]

/-- A decoder state mid-session with one pending accumulated bit. -/
def w9state : DState :=
  { initState with bits := [BitRec.mk 1 20 20], bitcount := 1,
                   pdu_start := some 10 }

/-- Witness for C9's flush clause: 3-wire stop at sample 200 with one
pending bit. -/
theorem spec_C9_witness :
    countByte (handle_stop_wire3 1000 w9state 200).2 = 1 :=
  (spec_C9 1000 w9state 200).2.2.2.2.2 (by decide)

end TMC

namespace TMC

/-- C3: 3-wire flush-on-stop: for every 3-wire session with exactly 8 clock
rising edges after the START condition followed directly by a strobe rising
edge (no 9th clock edge), the data phase emits no byte event and the stop
handler emits exactly one completed byte event via its explicit flush: the
byte is not lost. -/
theorem spec_C3 : ∀ (sr : ℚ) (t0 n1 n2 n3 n4 n5 n6 n7 n8 nstop : Int)
    (b1 b2 b3 b4 b5 b6 b7 b8 : Bool),
    (runData (handle_start { initState with bustype := some BusType.wire3 } t0).1
      [(n1, b1), (n2, b2), (n3, b3), (n4, b4),
       (n5, b5), (n6, b6), (n7, b7), (n8, b8)]).2 = []
    ∧ countByte (handle_stop_wire3 sr
        (runData (handle_start { initState with bustype := some BusType.wire3 } t0).1
          [(n1, b1), (n2, b2), (n3, b3), (n4, b4),
           (n5, b5), (n6, b6), (n7, b7), (n8, b8)]).1 nstop).2 = 1 := by
  intro sr t0 n1 n2 n3 n4 n5 n6 n7 n8 nstop b1 b2 b3 b4 b5 b6 b7 b8
  constructor
  · simp [runData, handle_start, clear_data, initState, handle_data,
      handle_data_wire3, handle_byte_wire3]
  · have h1 : ∀ (s : DState) (sn : Int),
        List.countP isByteEvt (handle_bitrateS sr s sn) = 0 :=
      fun s sn => countByte_handle_bitrateS sr s sn
    simp [runData, handle_start, clear_data, initState, handle_data,
      handle_data_wire3, handle_stop_wire3, handle_byte_wire3,
      countByte, isByteEvt, List.countP_cons, h1]

end TMC
